import Mathlib

/-!
Verification of mdnsscan: discovery → scan → classify → probe.

A shallow embedding of `main.go` (functions `printEntries`, `identifyService`,
`interactWithHTTP`, `interactWithSSH`, `probeService`).

Conventions of the embedding

* Go `int` is `Int`.  The only arithmetic on it is the loop counter (1..10001) and the
  `++` of counters that start at 0 and grow by at most one per connection made, so the
  64-bit wrap-around is out of reach and is not modelled.
* A Go `string` whose length or byte slices matter (HTTP body, banner) is `Bytes`, a list
  of bytes: `len` is `List.length`, `s[:k]` is `List.take k`.  Labels, passwords and the
  SSH command output are only compared or trimmed and are `String`.
* The network is an explicit environment: what every connect, read, GET and SSH attempt
  answers is an argument of the function that makes the call.
* Console output and network calls are recorded, in program order, as a list of `Event`.
* `map[string]int` is an association list with Go's `m[k]++` semantics.
-/

namespace MdnsScan

/-- A Go string seen as its bytes. -/
abbrev Bytes := List UInt8

/-- The `host:port` a connection is made to. -/
structure Address where
  ip : String
  port : Int
deriving DecidableEq, Repr

/-- What `conn.Read` reported besides the byte count: `err == nil`, `err == io.EOF`, or any
other error (a timeout among them). -/
inductive ReadErr where
  | none
  | eof
  | other
deriving DecidableEq, Repr

/-- How the single `Read` of `probeService` ends.  The connection is the TCP connection
that `net.DialTimeout("tcp", ...)` returns, and its `Read` reports bytes only without an
error: with every error the count is 0, and the end of the stream is the error `io.EOF`. -/
inductive ReadOutcome where
  /-- the read returned these bytes of the peer, `err == nil` -/
  | data (bytes : Bytes)
  /-- the stream ended: no bytes, `err == io.EOF` -/
  | eof
  /-- the read failed with another error, a timeout among them: no bytes -/
  | failed
deriving DecidableEq, Repr

/-- Behaviour of the connection opened by `probeService`. -/
structure ProbeEnv where
  /-- whether `net.DialTimeout` succeeded -/
  dialOk : Bool
  /-- whether `conn.SetReadDeadline` succeeded -/
  deadlineOk : Bool
  /-- how the single `Read` ends -/
  read : ReadOutcome
deriving DecidableEq, Repr

/-- Behaviour of `http.Get` followed by `io.ReadAll`. -/
inductive HTTPEnv where
  /-- the call `http.Get` returned an error -/
  | getError
  /-- the call `http.Get` returned a response with this status; `io.ReadAll` failed -/
  | readError (status : String)
  /-- the call `http.Get` returned a response with this status and `io.ReadAll` returned
  this body -/
  | response (status : String) (body : Bytes)
deriving DecidableEq, Repr

/-- Behaviour of one SSH attempt (`ssh.Dial`, `NewSession`, `Output "whoami"`). -/
inductive SSHAttempt where
  /-- the call `ssh.Dial` failed (connection or authentication) -/
  | dialError
  /-- the call `client.NewSession` failed -/
  | sessionError
  /-- the call `session.Output` failed -/
  | commandError
  /-- all three succeeded; the command printed `output` -/
  | output (out : String)
deriving DecidableEq, Repr

/-- One observable step of the program: a network call or a line written to the console. -/
inductive Event where
  | foundEntry (name : String)
  | scanning (port : Int)
  | dial (addr : Address)
  | portOpen (port : Int)
  | probeDial (addr : Address)
  | deadlineFailed
  | serviceMessage (banner : Bytes)
  | likely (port : Int) (service : String)
  | httpGet (addr : Address)
  | httpError (addr : Address)
  | httpStatus (addr : Address) (status : String)
  | httpBodyError (addr : Address)
  | httpBody (addr : Address) (body : Bytes)
  | sshDial (addr : Address) (password : String)
  | sshConnectError (addr : Address)
  | sshSessionError
  | sshCommandError
  | sshRoot (password : String)
  | sshNotRoot (password : String)
  | sshConnected (addr : Address)
  | totalDevices (n : Int)
  | totalOpenPorts (n : Int)
  | serviceFound (service : String) (count : Int)
deriving DecidableEq, Repr

/-! ## identifyService -/

/-- The function `identifyService` of `main.go`: a `switch` on distinct constants. -/
def identifyService (port : Int) : String :=
  if port = 22 then "SSH"
  else if port = 80 ∨ port = 443 then "HTTP"
  else if port = 554 then "RTSP"
  else if port = 5353 then "mDNS"
  else if port = 8008 ∨ port = 8009 then "Google Cast"
  else if port = 9000 then "DLNA"
  else if port = 123 then "NTP"
  else if port = 1900 then "SSDP"
  else if port = 2869 then "UPnP"
  else if port = 5350 ∨ port = 5351 then "Bonjour Sleep Proxy"
  else if port = 9090 then "AirPlay"
  else if port = 9091 then "AirTunes"
  else if port = 1901 then "PlayStation"
  else if port = 32400 then "Plex Media Server"
  else if port = 3689 then "iTunes"
  else if port = 5357 then "Web Services for Devices"
  else if port = 10243 then "Windows Remote Management"
  else if port = 5000 then "Synology DiskStation Manager"
  else if port = 5431 then "UPnP IGD"
  else if port = 32469 then "Roku Media Server"
  else ""

/-- The service names that occur in the table of `identifyService`. -/
def serviceNames : List String :=
  ["SSH", "HTTP", "RTSP", "mDNS", "Google Cast", "DLNA", "NTP", "SSDP", "UPnP",
   "Bonjour Sleep Proxy", "AirPlay", "AirTunes", "PlayStation", "Plex Media Server",
   "iTunes", "Web Services for Devices", "Windows Remote Management",
   "Synology DiskStation Manager", "UPnP IGD", "Roku Media Server"]

/-! ## probeService -/

/-- The call `conn.Read(buf)`: the buffer after the call, the count `n` and the error.
Bytes received are copied into the front of `buf`, as many as fit; a read that ends with
an error leaves the buffer as it was and reports 0 bytes. -/
def connRead (e : ProbeEnv) (buf : Bytes) : Bytes × Nat × ReadErr :=
  match e.read with
  | .data bytes =>
      let got := bytes.take buf.length
      (got ++ buf.drop got.length, got.length, ReadErr.none)
  | .eof => (buf, 0, ReadErr.eof)
  | .failed => (buf, 0, ReadErr.other)

/-- The function `probeService` of `main.go`: the banner it returns and the events of the
call. -/
def probeService (address : Address) (e : ProbeEnv) : Bytes × List Event :=
  if !e.dialOk then ([], [Event.probeDial address])
  else if !e.deadlineOk then ([], [Event.probeDial address, Event.deadlineFailed])
  else
    let buf : Bytes := List.replicate 1024 0
    let (buf, n, err) := connRead e buf
    if err ≠ ReadErr.none ∧ err ≠ ReadErr.eof then ([], [Event.probeDial address])
    else (buf.take n, [Event.probeDial address])

/-! ## interactWithHTTP -/

/-- The truncation marker appended by `interactWithHTTP`: the three bytes of `"..."`. -/
def marker : Bytes := [46, 46, 46]

/-- The body as `interactWithHTTP` prints it:
`if len(bodyStr) > 100 { bodyStr = bodyStr[:100] + "..." }`. -/
def truncateBody (bodyStr : Bytes) : Bytes :=
  if bodyStr.length > 100 then bodyStr.take 100 ++ marker else bodyStr

/-- The function `interactWithHTTP` of `main.go`. -/
def interactWithHTTP (ip : String) (port : Int) (e : HTTPEnv) : List Event :=
  let url : Address := ⟨ip, port⟩
  match e with
  | .getError => [Event.httpGet url, Event.httpError url]
  | .readError status => [Event.httpGet url, Event.httpStatus url status, Event.httpBodyError url]
  | .response status body =>
      [Event.httpGet url, Event.httpStatus url status, Event.httpBody url (truncateBody body)]

/-! ## interactWithSSH -/

/-- The predicate `unicode.IsSpace` of the Go standard library: the characters that
`strings.TrimSpace` removes. -/
def isSpace (c : Char) : Bool :=
  c = '\t' || c = '\n' || c.val = 0x0B || c.val = 0x0C || c = '\r' || c = ' ' ||
  c.val = 0x85 || c.val = 0xA0 || c.val = 0x1680 || (0x2000 ≤ c.val && c.val ≤ 0x200A) ||
  c.val = 0x2028 || c.val = 0x2029 || c.val = 0x202F || c.val = 0x205F || c.val = 0x3000

/-- The function `strings.TrimSpace` of the Go standard library: the string without its
leading and trailing white space. -/
def trimSpace (s : String) : String :=
  String.mk ((s.toList.dropWhile isSpace).reverse.dropWhile isSpace).reverse

/-- The candidate passwords of `interactWithSSH`, in the order of the source. -/
def passwords : List String := ["password", "admin", "administrator", "root", ""]

/-- One iteration of the `for _, password := range passwords` loop of `interactWithSSH`. -/
def sshAttempt (address : Address) (srv : String → SSHAttempt) (password : String) :
    List Event :=
  match srv password with
  | .dialError => [Event.sshDial address password, Event.sshConnectError address]
  | .sessionError => [Event.sshDial address password, Event.sshSessionError]
  | .commandError => [Event.sshDial address password, Event.sshCommandError]
  | .output out =>
      [Event.sshDial address password,
       if trimSpace out = "root" then Event.sshRoot password else Event.sshNotRoot password,
       Event.sshConnected address]

/-- The `range` loop of `interactWithSSH` over the passwords still to try. -/
def sshLoop (address : Address) (srv : String → SSHAttempt) :
    List String → List Event → List Event
  | [], out => out
  | password :: rest, out => sshLoop address srv rest (out ++ sshAttempt address srv password)

/-- The function `interactWithSSH` of `main.go`; `srv` is what the server does with each
password. -/
def interactWithSSH (ip : String) (port : Int) (srv : String → SSHAttempt) : List Event :=
  sshLoop ⟨ip, port⟩ srv passwords []

/-! ## printEntries -/

/-- The fields of `mdns.ServiceEntry` the program reads. -/
structure ServiceEntry where
  name : String
  host : String
  addrV4 : String
  addrV6 : String
  port : Int
  infoFields : List String
deriving DecidableEq, Repr

/-- What the network answers while one entry is scanned.  Each of these calls is made at
most once per port during the scan of one entry, so a function of the port covers every
behaviour of the network. -/
structure HostNet where
  /-- whether `net.DialTimeout` of the scan loop succeeded on this port -/
  dial : Int → Bool
  /-- the connection `probeService` opens to this port -/
  banner : Int → ProbeEnv
  /-- the HTTP exchange on this port -/
  http : Int → HTTPEnv
  /-- the SSH server on this port, per password -/
  ssh : Int → String → SSHAttempt

/-- The read `serviceCounts[k]`: the value stored under `k`, the zero value when `k` is
absent. -/
def mapGet (m : List (String × Int)) (k : String) : Int :=
  match m with
  | [] => 0
  | (k', v) :: rest => if k' = k then v else mapGet rest k

/-- The write `serviceCounts[k] = v`: overwrite the entry of `k`, or add one. -/
def mapSet (m : List (String × Int)) (k : String) (v : Int) : List (String × Int) :=
  match m with
  | [] => [(k, v)]
  | (k', v') :: rest => if k' = k then (k, v) :: rest else (k', v') :: mapSet rest k v

/-- The increment `serviceCounts[k]++`. -/
def mapIncr (m : List (String × Int)) (k : String) : List (String × Int) :=
  mapSet m k (mapGet m k + 1)

/-- The keys of the map. -/
def mapKeys (m : List (String × Int)) : List String := m.map Prod.fst

/-- The sum of the counts stored in the map. -/
def countsSum (m : List (String × Int)) : Int := (m.map Prod.snd).sum

/-- The local variables of `printEntries`, and everything it has done so far. -/
structure ScanState where
  totalDevices : Int
  totalOpenPorts : Int
  serviceCounts : List (String × Int)
  trace : List Event
deriving DecidableEq, Repr

/-- Append events to the trace. -/
def ScanState.emit (st : ScanState) (evs : List Event) : ScanState :=
  { st with trace := st.trace ++ evs }

/-- The state `printEntries` starts from: both counters 0, `make(map[string]int)`. -/
def ScanState.init : ScanState := ⟨0, 0, [], []⟩

/-- The body of `for port := 1; port <= 10000; port++` in `printEntries`. -/
def scanPort (entry : ServiceEntry) (net : HostNet) (port : Int) (st : ScanState) :
    ScanState :=
  let st := st.emit [Event.scanning port]
  let address : Address := ⟨entry.addrV4, port⟩
  let st := st.emit [Event.dial address]
  if !net.dial port then st -- continue
  else
    let st := { st with totalOpenPorts := st.totalOpenPorts + 1 }
    let st := st.emit [Event.portOpen port]
    let service := identifyService port
    let (serviceMsg, evs) := probeService address (net.banner port)
    let st := st.emit evs
    let st := if serviceMsg ≠ [] then st.emit [Event.serviceMessage serviceMsg] else st
    if service ≠ "" then
      let st := st.emit [Event.likely port service]
      let st := { st with serviceCounts := mapIncr st.serviceCounts service }
      if service = "HTTP" then
        st.emit (interactWithHTTP entry.addrV4 port (net.http port))
      else if service = "SSH" then
        st.emit (interactWithSSH entry.addrV4 port (net.ssh port))
      else st
    else st

/-- The loop `for port := ...; port <= last; port++` of `printEntries`, entered with the
given value of `port`. -/
def scanLoop (last : Int) (entry : ServiceEntry) (net : HostNet) (port : Int)
    (st : ScanState) : ScanState :=
  if port ≤ last then scanLoop last entry net (port + 1) (scanPort entry net port st)
  else st
termination_by (last + 1 - port).toNat
decreasing_by omega

/-- The last port of the scan: the `10000` of `port <= 10000`. -/
def lastPort : Int := 10000

/-- The body of `for entry := range entriesCh` in `printEntries`; the lines that print the
fields of the entry are one `foundEntry` event. -/
def scanEntry (entry : ServiceEntry) (net : HostNet) (st : ScanState) : ScanState :=
  let st := { st with totalDevices := st.totalDevices + 1 }
  let st := st.emit [Event.foundEntry entry.name]
  scanLoop lastPort entry net 1 st

/-- The loop `for entry := range entriesCh` over the entries the channel delivers. -/
def entriesLoop (entries : List (ServiceEntry × HostNet)) (st : ScanState) : ScanState :=
  entries.foldl (fun st entry => scanEntry entry.1 entry.2 st) st

/-- The report printed after the loop (Go ranges over the map in an unspecified order; the
order of insertion stands for it). -/
def report (st : ScanState) : ScanState :=
  st.emit ([Event.totalDevices st.totalDevices, Event.totalOpenPorts st.totalOpenPorts] ++
    st.serviceCounts.map (fun kv => Event.serviceFound kv.1 kv.2))

/-- The function `printEntries` of `main.go`; `entries` is what the channel delivers until
it is closed, each entry with the behaviour of the network while it is scanned. -/
def printEntries (entries : List (ServiceEntry × HostNet)) : ScanState :=
  report (entriesLoop entries ScanState.init)

/-! ## Observations on traces -/

/-- The password of an `ssh.Dial` event. -/
def Event.sshPassword? : Event → Option String
  | .sshDial _ password => some password
  | _ => none

/-- The lines by which `interactWithSSH` reports how an attempt ended: one of the three
error lines, or the verdict line after `whoami`. -/
def Event.isSSHOutcome : Event → Bool
  | .sshConnectError _ => true
  | .sshSessionError => true
  | .sshCommandError => true
  | .sshRoot _ => true
  | .sshNotRoot _ => true
  | _ => false

/-- The outcome line the source prints for a password, read off the server's behaviour. -/
def sshOutcome (address : Address) (srv : String → SSHAttempt) (password : String) : Event :=
  match srv password with
  | .dialError => Event.sshConnectError address
  | .sessionError => Event.sshSessionError
  | .commandError => Event.sshCommandError
  | .output out =>
      if trimSpace out = "root" then Event.sshRoot password else Event.sshNotRoot password

/-- The port of a connect probe of the scan loop. -/
def Event.dialPort? : Event → Option Int
  | .dial addr => some addr.port
  | _ => none

/-- The port of a banner grab (`probeService` dialling). -/
def Event.probePort? : Event → Option Int
  | .probeDial addr => some addr.port
  | _ => none

/-- The port of a call of `interactWithHTTP`, seen at the `http.Get` every call starts
with. -/
def Event.httpPort? : Event → Option Int
  | .httpGet addr => some addr.port
  | _ => none

/-- The port of a call of `interactWithSSH`, seen at the `ssh.Dial` with the first
candidate password that every call starts with. -/
def Event.sshPort? : Event → Option Int
  | .sshDial addr password => if password = "password" then some addr.port else none
  | _ => none

/-- Events that belong to a protocol interaction. -/
def Event.isInteraction : Event → Bool
  | .httpGet _ => true
  | .httpError _ => true
  | .httpStatus _ _ => true
  | .httpBodyError _ => true
  | .httpBody _ _ => true
  | .sshDial _ _ => true
  | .sshConnectError _ => true
  | .sshSessionError => true
  | .sshCommandError => true
  | .sshRoot _ => true
  | .sshNotRoot _ => true
  | .sshConnected _ => true
  | _ => false

/-- The service names `identifyService` gives to some port of 1..10000: the table without
the names of the ports 10243, 32400 and 32469. -/
def scannedNames : List String :=
  ["SSH", "HTTP", "RTSP", "mDNS", "Google Cast", "DLNA", "NTP", "SSDP", "UPnP",
   "Bonjour Sleep Proxy", "AirPlay", "AirTunes", "PlayStation", "iTunes",
   "Web Services for Devices", "Synology DiskStation Manager", "UPnP IGD"]

/-- The bytes of a text of characters: its UTF-8 encoding, as a response body carries
it. -/
def utf8Bytes (text : List Char) : Bytes := text.flatMap String.utf8EncodeChar

/-- A text of 60 characters `é` (U+00E9), two bytes each. -/
def accentedText : List Char := List.replicate 60 (Char.ofNat 233)

/-- The ports `port, port + 1, ...`, `n` of them. -/
def portsFrom (port : Int) : Nat → List Int
  | 0 => []
  | n + 1 => port :: portsFrom (port + 1) n

/-- The events one iteration of the scan loop adds, whatever the state it starts in. -/
def portTrace (entry : ServiceEntry) (net : HostNet) (port : Int) : List Event :=
  (scanPort entry net port ScanState.init).trace

/-- The ports 1, 2, ..., 10000 in ascending order. -/
def scannedPorts : List Int := (List.range' 1 10000).map Int.ofNat

/-- A server that accepts the password `admin` and whose `whoami` answers `root`. -/
def adminRootServer : String → SSHAttempt :=
  fun password => if password = "admin" then .output "root\n" else .dialError

/-- A network on which no port answers. -/
def closedNet : HostNet :=
  ⟨fun _ => false, fun _ => ⟨false, false, .failed⟩, fun _ => .getError,
   fun _ _ => .dialError⟩

/-- An entry as the discovery delivers it. -/
def sampleEntry : ServiceEntry := ⟨"printer", "printer.local.", "192.168.1.20", "", 631, []⟩

/-! ## identifyService -/

/-- A property of both branches of an `if` on labels holds of the `if`. -/
theorem ite_label {c : Prop} [Decidable c] (P : String → Prop) (a b : String)
    (ha : c → P a) (hb : ¬ c → P b) : P (if c then a else b) := by
  by_cases h : c
  · rw [if_pos h]; exact ha h
  · rw [if_neg h]; exact hb h

set_option maxRecDepth 4000 in
theorem identifyService_mem (p : Int) :
    identifyService p ∈ serviceNames ∨ identifyService p = "" := by
  unfold identifyService
  repeat' refine ite_label (fun s => s ∈ serviceNames ∨ s = "") _ _ (fun _ => ?_) (fun _ => ?_)
  all_goals first
    | exact Or.inr rfl
    | exact Or.inl (by decide)

theorem identifyService_eq_HTTP (p : Int) :
    identifyService p = "HTTP" ↔ p = 80 ∨ p = 443 := by
  unfold identifyService
  repeat' refine ite_label (fun s => s = "HTTP" ↔ _) _ _ (fun _ => ?_) (fun _ => ?_)
  all_goals first
    | exact ⟨fun _ => by assumption, fun _ => rfl⟩
    | exact ⟨fun h => absurd h (by decide), fun h => by omega⟩

theorem identifyService_eq_SSH (p : Int) :
    identifyService p = "SSH" ↔ p = 22 := by
  unfold identifyService
  repeat' refine ite_label (fun s => s = "SSH" ↔ p = 22) _ _ (fun _ => ?_) (fun _ => ?_)
  all_goals first
    | exact ⟨fun _ => by assumption, fun _ => rfl⟩
    | exact ⟨fun h => absurd h (by decide), fun h => by omega⟩

theorem identifyService_scanned (p : Int) (h1 : 1 ≤ p) (h2 : p ≤ 10000) :
    identifyService p ∈ scannedNames ∨ identifyService p = "" := by
  unfold identifyService
  repeat' refine ite_label (fun s => s ∈ _ ∨ s = "") _ _ (fun _ => ?_) (fun _ => ?_)
  all_goals first
    | exact Or.inr rfl
    | exact Or.inl (by decide)
    | (exfalso; omega)

/-- C1: for a port `p` in 1..10000, `identifyService` depends on `p` alone (equal ports get
equal labels) and its label is one of the 20 service names of the table or the empty
(unknown) label. -/
theorem identifyService_pure_enumerated (p q : Int) (h1 : 1 ≤ p) (h2 : p ≤ 10000)
    (hq : q = p) :
    identifyService q = identifyService p ∧
      (identifyService p ∈
          ["SSH", "HTTP", "RTSP", "mDNS", "Google Cast", "DLNA", "NTP", "SSDP", "UPnP",
           "Bonjour Sleep Proxy", "AirPlay", "AirTunes", "PlayStation", "Plex Media Server",
           "iTunes", "Web Services for Devices", "Windows Remote Management",
           "Synology DiskStation Manager", "UPnP IGD", "Roku Media Server"] ∨
        identifyService p = "") := by
  have _ := h1
  have _ := h2
  subst hq
  exact ⟨rfl, identifyService_mem _⟩

theorem identifyService_pure_enumerated_witness :
    identifyService 80 = identifyService 80 ∧
      (identifyService 80 ∈
          ["SSH", "HTTP", "RTSP", "mDNS", "Google Cast", "DLNA", "NTP", "SSDP", "UPnP",
           "Bonjour Sleep Proxy", "AirPlay", "AirTunes", "PlayStation", "Plex Media Server",
           "iTunes", "Web Services for Devices", "Windows Remote Management",
           "Synology DiskStation Manager", "UPnP IGD", "Roku Media Server"] ∨
        identifyService 80 = "") :=
  identifyService_pure_enumerated 80 80 (by decide) (by decide) rfl

/-! ## interactWithHTTP -/

set_option maxRecDepth 20000 in
/-- C2, as stated, fails: a body of 60 characters `é` has length 60 in characters, at most
100, yet it is 120 bytes long and `interactWithHTTP` prints its first 100 bytes, the first 50
characters, followed by the marker, not the body itself. -/
theorem interactWithHTTP_cuts_short_text :
    accentedText.length = 60 ∧
      (utf8Bytes accentedText).length = 120 ∧
      interactWithHTTP "192.168.1.20" 80 (.response "200 OK" (utf8Bytes accentedText)) =
        [Event.httpGet ⟨"192.168.1.20", 80⟩,
         Event.httpStatus ⟨"192.168.1.20", 80⟩ "200 OK",
         Event.httpBody ⟨"192.168.1.20", 80⟩
           (utf8Bytes (accentedText.take 50) ++ marker)] ∧
      utf8Bytes (accentedText.take 50) ++ marker ≠ utf8Bytes accentedText := by
  decide

/-- C2, amended: whenever the body of the response was read, the body `interactWithHTTP`
prints is the body itself when its length in bytes (Go's `len`) is at most 100, and
otherwise its first 100 bytes followed by the marker `...`, 103 bytes in all. -/
theorem interactWithHTTP_truncates (ip : String) (port : Int) (status : String)
    (body : Bytes) :
    interactWithHTTP ip port (.response status body) =
        [Event.httpGet ⟨ip, port⟩, Event.httpStatus ⟨ip, port⟩ status,
         Event.httpBody ⟨ip, port⟩
           (if body.length ≤ 100 then body else body.take 100 ++ marker)] ∧
      marker.map (fun b => Char.ofNat b.toNat) = "...".toList ∧
      (100 < body.length →
        (body.take 100 ++ marker).length = 103 ∧
          (body.take 100 ++ marker).take 100 = body.take 100 ∧
          (body.take 100 ++ marker).drop 100 = marker) := by
  refine ⟨?_, by decide, ?_⟩
  · simp only [interactWithHTTP, truncateBody]
    by_cases h : body.length ≤ 100
    · have h' : ¬ body.length > 100 := by omega
      simp [h, h']
    · have h' : body.length > 100 := by omega
      simp [h, h']
  · intro h
    have hl : (body.take 100).length = 100 := by
      rw [List.length_take]; omega
    refine ⟨?_, ?_, ?_⟩
    · rw [List.length_append, hl]; rfl
    · rw [List.take_append_of_le_length (by omega)]
      rw [List.take_take]; simp
    · rw [List.drop_append_of_le_length (by omega)]
      rw [List.drop_eq_nil_of_le (by omega)]; rfl

theorem interactWithHTTP_truncates_witness :
    interactWithHTTP "192.168.1.20" 80 (.response "200 OK" (List.replicate 250 120)) =
        [Event.httpGet ⟨"192.168.1.20", 80⟩,
         Event.httpStatus ⟨"192.168.1.20", 80⟩ "200 OK",
         Event.httpBody ⟨"192.168.1.20", 80⟩ (List.replicate 100 120 ++ [46, 46, 46])] ∧
      (List.replicate 100 (120 : UInt8) ++ [46, 46, 46]).length = 103 := by
  have h :=
    (interactWithHTTP_truncates "192.168.1.20" 80 "200 OK" (List.replicate 250 120)).1
  rw [h]
  refine ⟨?_, by simp⟩
  have hl : ¬ (List.replicate 250 (120 : UInt8)).length ≤ 100 := by
    rw [List.length_replicate]; omega
  rw [if_neg hl, List.take_replicate]
  rfl

/-! ## probeService -/

/-- The count a read reports is at most the length of the buffer, and 0 when the read
ended with an error. -/
theorem connRead_count (e : ProbeEnv) (buf : Bytes) :
    (connRead e buf).2.1 ≤ buf.length ∧
      ((connRead e buf).2.2 ≠ ReadErr.none → (connRead e buf).2.1 = 0) := by
  unfold connRead
  cases e.read with
  | data bytes =>
      refine ⟨?_, fun h => absurd rfl h⟩
      simp only [List.length_take]
      omega
  | eof => exact ⟨Nat.zero_le _, fun _ => rfl⟩
  | failed => exact ⟨Nat.zero_le _, fun _ => rfl⟩

/-- After a read that returned bytes, the first `n` bytes of the buffer are those bytes,
as many as fit. -/
theorem connRead_data (e : ProbeEnv) (buf bytes : Bytes) (h : e.read = .data bytes) :
    (connRead e buf).1.take (connRead e buf).2.1 = bytes.take buf.length := by
  unfold connRead
  rw [h]
  exact List.take_left' rfl

/-- The banner of `probeService` once the connection is open and the deadline set. -/
theorem probeService_open (address : Address) (e : ProbeEnv) (hd : e.dialOk = true)
    (hl : e.deadlineOk = true) :
    (probeService address e).1 =
      (connRead e (List.replicate 1024 0)).1.take
        (connRead e (List.replicate 1024 0)).2.1 := by
  have hc := (connRead_count e (List.replicate 1024 0)).2
  unfold probeService
  generalize List.replicate 1024 (0 : UInt8) = buf0 at hc ⊢
  rw [hd, hl]
  dsimp only
  generalize connRead e buf0 = r at hc ⊢
  obtain ⟨buf, n, err⟩ := r
  simp only at hc
  cases err with
  | none => simp
  | eof => simp
  | other =>
      have hn : n = 0 := hc (by decide)
      subst hn
      simp

theorem probeService_closed (address : Address) (e : ProbeEnv)
    (h : e.dialOk = false ∨ e.deadlineOk = false) : (probeService address e).1 = [] := by
  unfold probeService
  cases hd : e.dialOk
  · simp
  · cases hl : e.deadlineOk
    · simp
    · rcases h with h | h
      · rw [hd] at h; cases h
      · rw [hl] at h; cases h

/-- The banner after a read that ended with an error, end-of-stream included. -/
theorem probeService_no_bytes (address : Address) (e : ProbeEnv)
    (h : e.read = .failed ∨ e.read = .eof) : (probeService address e).1 = [] := by
  cases hd : e.dialOk
  · exact probeService_closed address e (Or.inl hd)
  · cases hl : e.deadlineOk
    · exact probeService_closed address e (Or.inr hl)
    · rw [probeService_open address e hd hl]
      have h0 : (connRead e (List.replicate 1024 0)).2.1 = 0 := by
        unfold connRead
        rcases h with h | h <;> rw [h]
      rw [h0]
      exact List.take_zero _

/-- C9: `probeService` returns a banner and never an error; the banner is empty after a
connect failure, a failure to set the read deadline, or a read that timed out or failed;
once the connection is open and the deadline set, the banner is exactly the first `n` bytes
of the buffer, `n` the count the read reported, however the read ended; `n` is at most
1024, and bytes the read obtained are returned verbatim. -/
theorem probeService_banner (address : Address) (e : ProbeEnv) :
    (e.dialOk = false → (probeService address e).1 = []) ∧
      (e.deadlineOk = false → (probeService address e).1 = []) ∧
      (e.read = ReadOutcome.failed → (probeService address e).1 = []) ∧
      (e.dialOk = true → e.deadlineOk = true →
        (probeService address e).1 =
          (connRead e (List.replicate 1024 0)).1.take
            (connRead e (List.replicate 1024 0)).2.1) ∧
      (connRead e (List.replicate 1024 0)).2.1 ≤ 1024 ∧
      (∀ bytes : Bytes, e.dialOk = true → e.deadlineOk = true →
        e.read = ReadOutcome.data bytes → (probeService address e).1 = bytes.take 1024) ∧
      (probeService address e).1.length ≤ 1024 := by
  have hn : (connRead e (List.replicate 1024 0)).2.1 ≤ 1024 := by
    have h := (connRead_count e (List.replicate 1024 0)).1
    rw [List.length_replicate] at h
    exact h
  refine ⟨fun hd => probeService_closed address e (Or.inl hd),
    fun hl => probeService_closed address e (Or.inr hl),
    fun hf => probeService_no_bytes address e (Or.inl hf),
    fun hd hl => probeService_open address e hd hl, hn, ?_, ?_⟩
  · intro bytes hd hl hr
    rw [probeService_open address e hd hl, connRead_data e _ bytes hr,
      List.length_replicate]
  · cases hd : e.dialOk
    · rw [probeService_closed address e (Or.inl hd)]
      exact Nat.zero_le _
    · cases hl : e.deadlineOk
      · rw [probeService_closed address e (Or.inr hl)]
        exact Nat.zero_le _
      · rw [probeService_open address e hd hl, List.length_take]
        omega

theorem probeService_banner_witness :
    (probeService ⟨"192.168.1.20", 22⟩ ⟨true, true, .data [83, 83, 72]⟩).1 = [83, 83, 72] ∧
      (probeService ⟨"192.168.1.20", 22⟩ ⟨true, true, .failed⟩).1 = [] ∧
      (probeService ⟨"192.168.1.20", 22⟩ ⟨false, true, .data [83, 83, 72]⟩).1 = [] :=
  ⟨(probeService_banner ⟨"192.168.1.20", 22⟩ ⟨true, true, .data [83, 83, 72]⟩).2.2.2.2.2.1
      [83, 83, 72] rfl rfl rfl,
   (probeService_banner ⟨"192.168.1.20", 22⟩ ⟨true, true, .failed⟩).2.2.1 rfl,
   (probeService_banner ⟨"192.168.1.20", 22⟩ ⟨false, true, .data [83, 83, 72]⟩).1 rfl⟩

/-! ## interactWithSSH -/

theorem sshLoop_eq (address : Address) (srv : String → SSHAttempt) (pws : List String)
    (out : List Event) :
    sshLoop address srv pws out = out ++ pws.flatMap (sshAttempt address srv) := by
  induction pws generalizing out with
  | nil => simp [sshLoop]
  | cons pw rest ih => simp [sshLoop, ih]

theorem interactWithSSH_eq (ip : String) (port : Int) (srv : String → SSHAttempt) :
    interactWithSSH ip port srv = passwords.flatMap (sshAttempt ⟨ip, port⟩ srv) := by
  simp [interactWithSSH, sshLoop_eq]

/-- One attempt dials once, with its password. -/
theorem sshAttempt_passwords (address : Address) (srv : String → SSHAttempt) (pw : String) :
    (sshAttempt address srv pw).filterMap Event.sshPassword? = [pw] := by
  unfold sshAttempt
  cases srv pw with
  | output out => by_cases h : trimSpace out = "root" <;> simp [Event.sshPassword?, h]
  | _ => simp [Event.sshPassword?]

/-- One attempt prints one outcome line. -/
theorem sshAttempt_outcomes (address : Address) (srv : String → SSHAttempt) (pw : String) :
    (sshAttempt address srv pw).filter Event.isSSHOutcome = [sshOutcome address srv pw] := by
  unfold sshAttempt sshOutcome
  cases srv pw with
  | output out => by_cases h : trimSpace out = "root" <;> simp [Event.isSSHOutcome, h]
  | _ => simp [Event.isSSHOutcome]

theorem flatMap_passwords (address : Address) (srv : String → SSHAttempt)
    (pws : List String) :
    (pws.flatMap (sshAttempt address srv)).filterMap Event.sshPassword? = pws := by
  induction pws with
  | nil => rfl
  | cons pw rest ih =>
      rw [List.flatMap_cons, List.filterMap_append, ih, sshAttempt_passwords]; rfl

theorem flatMap_outcomes (address : Address) (srv : String → SSHAttempt)
    (pws : List String) :
    (pws.flatMap (sshAttempt address srv)).filter Event.isSSHOutcome =
      pws.map (sshOutcome address srv) := by
  induction pws with
  | nil => rfl
  | cons pw rest ih =>
      rw [List.flatMap_cons, List.filter_append, ih, sshAttempt_outcomes]; rfl

/-- C5: whatever the server does with each password, `interactWithSSH` dials with the five
candidate passwords in the order of the source, each exactly once, and prints exactly one
outcome line per candidate, in the same order. -/
theorem interactWithSSH_tries_all (ip : String) (port : Int) (srv : String → SSHAttempt) :
    (interactWithSSH ip port srv).filterMap Event.sshPassword? =
        ["password", "admin", "administrator", "root", ""] ∧
      (interactWithSSH ip port srv).filter Event.isSSHOutcome =
        ["password", "admin", "administrator", "root", ""].map
          (sshOutcome ⟨ip, port⟩ srv) ∧
      ((interactWithSSH ip port srv).filter Event.isSSHOutcome).length = 5 := by
  rw [interactWithSSH_eq, flatMap_passwords, flatMap_outcomes]
  exact ⟨rfl, rfl, rfl⟩

theorem mem_sshAttempt_root (address : Address) (srv : String → SSHAttempt)
    (pw q out : String) (hs : srv pw = .output out) :
    (Event.sshRoot pw ∈ sshAttempt address srv q ↔ q = pw ∧ trimSpace out = "root") ∧
      (Event.sshNotRoot pw ∈ sshAttempt address srv q ↔
        q = pw ∧ trimSpace out ≠ "root") := by
  by_cases hq : q = pw
  · subst hq
    unfold sshAttempt
    rw [hs]
    by_cases ht : trimSpace out = "root" <;> simp [ht]
  · have hq' : ¬ pw = q := fun h => hq h.symm
    unfold sshAttempt
    cases srv q with
    | output o => by_cases h : trimSpace o = "root" <;> simp [hq, hq', h]
    | _ => simp [hq, hq']

/-- C7: for a candidate password whose connection, session and `whoami` all succeed,
`interactWithSSH` prints that the server responds to root exactly when the trimmed output
is `root`, and that it does not exactly when it is not; and against a server that accepts
only `admin` and answers root, the five attempts end in: connect error, responds to root
with `admin`, connect error, connect error, connect error. -/
theorem interactWithSSH_root_check (ip : String) (port : Int) (srv : String → SSHAttempt)
    (pw out : String) (hpw : pw ∈ passwords) (hs : srv pw = .output out) :
    (Event.sshRoot pw ∈ interactWithSSH ip port srv ↔ trimSpace out = "root") ∧
      (Event.sshNotRoot pw ∈ interactWithSSH ip port srv ↔ trimSpace out ≠ "root") ∧
      (pw = "admin" → trimSpace out = "root" →
        (∀ q, q ≠ "admin" → srv q = .dialError) →
        interactWithSSH ip port srv =
            [Event.sshDial ⟨ip, port⟩ "password", Event.sshConnectError ⟨ip, port⟩,
             Event.sshDial ⟨ip, port⟩ "admin", Event.sshRoot "admin",
             Event.sshConnected ⟨ip, port⟩,
             Event.sshDial ⟨ip, port⟩ "administrator", Event.sshConnectError ⟨ip, port⟩,
             Event.sshDial ⟨ip, port⟩ "root", Event.sshConnectError ⟨ip, port⟩,
             Event.sshDial ⟨ip, port⟩ "", Event.sshConnectError ⟨ip, port⟩] ∧
          (interactWithSSH ip port srv).filter Event.isSSHOutcome =
            [Event.sshConnectError ⟨ip, port⟩, Event.sshRoot "admin",
             Event.sshConnectError ⟨ip, port⟩, Event.sshConnectError ⟨ip, port⟩,
             Event.sshConnectError ⟨ip, port⟩]) := by
  refine ⟨?_, ?_, ?_⟩
  · rw [interactWithSSH_eq, List.mem_flatMap]
    constructor
    · rintro ⟨q, _, hq⟩
      exact (((mem_sshAttempt_root _ srv pw q out hs).1).1 hq).2
    · intro ht
      exact ⟨pw, hpw, ((mem_sshAttempt_root _ srv pw pw out hs).1).2 ⟨rfl, ht⟩⟩
  · rw [interactWithSSH_eq, List.mem_flatMap]
    constructor
    · rintro ⟨q, _, hq⟩
      exact (((mem_sshAttempt_root _ srv pw q out hs).2).1 hq).2
    · intro ht
      exact ⟨pw, hpw, ((mem_sshAttempt_root _ srv pw pw out hs).2).2 ⟨rfl, ht⟩⟩
  · intro ha ht hothers
    subst ha
    have h1 := hothers "password" (by decide)
    have h2 := hothers "administrator" (by decide)
    have h3 := hothers "root" (by decide)
    have h4 := hothers "" (by decide)
    have hT : interactWithSSH ip port srv =
        [Event.sshDial ⟨ip, port⟩ "password", Event.sshConnectError ⟨ip, port⟩,
         Event.sshDial ⟨ip, port⟩ "admin", Event.sshRoot "admin",
         Event.sshConnected ⟨ip, port⟩,
         Event.sshDial ⟨ip, port⟩ "administrator", Event.sshConnectError ⟨ip, port⟩,
         Event.sshDial ⟨ip, port⟩ "root", Event.sshConnectError ⟨ip, port⟩,
         Event.sshDial ⟨ip, port⟩ "", Event.sshConnectError ⟨ip, port⟩] := by
      rw [interactWithSSH_eq]
      simp [passwords, sshAttempt, h1, h2, h3, h4, hs, ht]
    refine ⟨hT, ?_⟩
    rw [hT]
    simp [Event.isSSHOutcome]

theorem interactWithSSH_root_check_witness :
    trimSpace "root\n" = "root" ∧
      interactWithSSH "192.168.1.20" 22 adminRootServer =
        [Event.sshDial ⟨"192.168.1.20", 22⟩ "password",
         Event.sshConnectError ⟨"192.168.1.20", 22⟩,
         Event.sshDial ⟨"192.168.1.20", 22⟩ "admin", Event.sshRoot "admin",
         Event.sshConnected ⟨"192.168.1.20", 22⟩,
         Event.sshDial ⟨"192.168.1.20", 22⟩ "administrator",
         Event.sshConnectError ⟨"192.168.1.20", 22⟩,
         Event.sshDial ⟨"192.168.1.20", 22⟩ "root",
         Event.sshConnectError ⟨"192.168.1.20", 22⟩,
         Event.sshDial ⟨"192.168.1.20", 22⟩ "",
         Event.sshConnectError ⟨"192.168.1.20", 22⟩] :=
  ⟨by decide,
   ((interactWithSSH_root_check "192.168.1.20" 22 adminRootServer "admin" "root\n"
      (by decide) rfl).2.2 rfl (by decide)
      (fun q hq => by simp [adminRootServer, hq])).1⟩

/-! ## The scan loop -/

theorem emit_trace (st : ScanState) (evs : List Event) :
    (st.emit evs).trace = st.trace ++ evs := rfl

theorem label_cases (s : String) :
    s = "HTTP" ∨ s = "SSH" ∨ s = "" ∨ (s ≠ "" ∧ s ≠ "HTTP" ∧ s ≠ "SSH") := by
  by_cases h1 : s = "HTTP"
  · exact Or.inl h1
  · by_cases h2 : s = "SSH"
    · exact Or.inr (Or.inl h2)
    · by_cases h0 : s = ""
      · exact Or.inr (Or.inr (Or.inl h0))
      · exact Or.inr (Or.inr (Or.inr ⟨h0, h1, h2⟩))

/-- The explicit list of events one iteration of the scan loop produces. -/
theorem portTrace_eq (entry : ServiceEntry) (net : HostNet) (p : Int) :
    portTrace entry net p =
      [Event.scanning p, Event.dial ⟨entry.addrV4, p⟩] ++
        if net.dial p = true then
          [Event.portOpen p] ++ (probeService ⟨entry.addrV4, p⟩ (net.banner p)).2 ++
            (if (probeService ⟨entry.addrV4, p⟩ (net.banner p)).1 ≠ [] then
              [Event.serviceMessage (probeService ⟨entry.addrV4, p⟩ (net.banner p)).1]
             else []) ++
            (if identifyService p ≠ "" then
              [Event.likely p (identifyService p)] ++
                (if identifyService p = "HTTP" then
                  interactWithHTTP entry.addrV4 p (net.http p)
                 else if identifyService p = "SSH" then
                  interactWithSSH entry.addrV4 p (net.ssh p)
                 else [])
             else [])
        else [] := by
  unfold portTrace scanPort
  dsimp only
  generalize probeService ⟨entry.addrV4, p⟩ (net.banner p) = r
  obtain ⟨msg, evs⟩ := r
  cases hd : net.dial p
  · simp [ScanState.emit, ScanState.init]
  · by_cases hm : msg = [] <;> rcases label_cases (identifyService p) with h | h | h | h <;>
      simp [ScanState.emit, ScanState.init, hm, h]

/-- One iteration of the scan loop, as a function of the state it starts in. -/
theorem scanPort_eq (entry : ServiceEntry) (net : HostNet) (p : Int) (st : ScanState) :
    scanPort entry net p st =
      { totalDevices := st.totalDevices
        totalOpenPorts := st.totalOpenPorts + (if net.dial p = true then 1 else 0)
        serviceCounts :=
          if net.dial p = true ∧ identifyService p ≠ "" then
            mapIncr st.serviceCounts (identifyService p)
          else st.serviceCounts
        trace := st.trace ++ portTrace entry net p } := by
  unfold portTrace scanPort
  dsimp only
  generalize probeService ⟨entry.addrV4, p⟩ (net.banner p) = r
  obtain ⟨msg, evs⟩ := r
  cases hd : net.dial p
  · simp [ScanState.emit, ScanState.init]
  · by_cases hm : msg = [] <;> rcases label_cases (identifyService p) with h | h | h | h <;>
      simp [ScanState.emit, ScanState.init, hm, h]

/-- The loop visits the ports `port, port + 1, ..., last` in this order. -/
theorem scanLoop_eq_foldl (last : Int) (entry : ServiceEntry) (net : HostNet) (port : Int)
    (st : ScanState) :
    scanLoop last entry net port st =
      (portsFrom port (last + 1 - port).toNat).foldl (fun s p => scanPort entry net p s) st := by
  unfold scanLoop
  split
  · have hn : (last + 1 - port).toNat = (last + 1 - (port + 1)).toNat + 1 := by omega
    rw [hn, portsFrom, List.foldl_cons, scanLoop_eq_foldl]
  · have hn : (last + 1 - port).toNat = 0 := by omega
    rw [hn]
    rfl
termination_by (last + 1 - port).toNat
decreasing_by omega

theorem portsFrom_eq_range (a n : Nat) :
    portsFrom (a : Int) n = (List.range' a n).map Int.ofNat := by
  induction n generalizing a with
  | zero => rfl
  | succ n ih =>
      rw [portsFrom, List.range'_succ, List.map_cons]
      have := ih (a + 1)
      rw [Nat.cast_add, Nat.cast_one] at this
      rw [this]
      rfl

/-- The ports of one pass: 1, 2, ..., 10000. -/
theorem scanned_ports : portsFrom 1 (lastPort + 1 - 1).toNat = scannedPorts := by
  have h : (lastPort + 1 - 1).toNat = 10000 := by decide
  rw [h]
  exact portsFrom_eq_range 1 10000

theorem mem_scannedPorts (p : Int) : p ∈ scannedPorts ↔ 1 ≤ p ∧ p ≤ 10000 := by
  simp only [scannedPorts, List.mem_map, List.mem_range']
  constructor
  · rintro ⟨n, ⟨i, hi, rfl⟩, rfl⟩
    simp only [Int.ofNat_eq_coe]
    omega
  · rintro ⟨h1, h2⟩
    refine ⟨p.toNat, ⟨p.toNat - 1, by omega, by omega⟩, ?_⟩
    simp only [Int.ofNat_eq_coe]
    omega

theorem foldl_scanPort (entry : ServiceEntry) (net : HostNet) (ps : List Int)
    (st : ScanState) :
    (ps.foldl (fun s p => scanPort entry net p s) st).totalDevices = st.totalDevices ∧
      (ps.foldl (fun s p => scanPort entry net p s) st).totalOpenPorts =
        st.totalOpenPorts + ((ps.filter (fun p => net.dial p)).length : Int) ∧
      (ps.foldl (fun s p => scanPort entry net p s) st).trace =
        st.trace ++ ps.flatMap (portTrace entry net) := by
  induction ps generalizing st with
  | nil => simp
  | cons p rest ih =>
      rw [List.foldl_cons]
      obtain ⟨h1, h2, h3⟩ := ih (scanPort entry net p st)
      rw [h1, h2, h3, scanPort_eq]
      cases hd : net.dial p <;> simp [hd]
      omega

/-! ## Counters of the scan -/

theorem countsSum_mapIncr (m : List (String × Int)) (k : String) :
    countsSum (mapIncr m k) = countsSum m + 1 := by
  unfold mapIncr
  induction m with
  | nil => simp [mapSet, mapGet, countsSum]
  | cons kv rest ih =>
      obtain ⟨k', v'⟩ := kv
      by_cases h : k' = k
      · simp only [mapSet, mapGet, if_pos h, countsSum, List.map_cons, List.sum_cons]
        omega
      · simp only [mapSet, mapGet, if_neg h, countsSum, List.map_cons, List.sum_cons]
        simp only [countsSum] at ih
        omega

theorem mem_mapKeys_mapSet (m : List (String × Int)) (k : String) (v : Int) (x : String)
    (hx : x ∈ mapKeys (mapSet m k v)) : x = k ∨ x ∈ mapKeys m := by
  induction m with
  | nil =>
      simp only [mapSet, mapKeys, List.map_cons, List.map_nil, List.mem_singleton] at hx
      exact Or.inl hx
  | cons kv rest ih =>
      obtain ⟨k', v'⟩ := kv
      by_cases h : k' = k
      · simp only [mapSet, if_pos h, mapKeys, List.map_cons, List.mem_cons] at hx ⊢
        rcases hx with hx | hx
        · exact Or.inl hx
        · exact Or.inr (Or.inr hx)
      · simp only [mapSet, if_neg h, mapKeys, List.map_cons, List.mem_cons] at hx ⊢
        rcases hx with hx | hx
        · exact Or.inr (Or.inl hx)
        · rcases ih hx with h' | h'
          · exact Or.inl h'
          · exact Or.inr (Or.inr h')

/-- The sum of the label counts grows by one per open port with a known label. -/
theorem foldl_countsSum (entry : ServiceEntry) (net : HostNet) (ps : List Int)
    (st : ScanState) :
    countsSum (ps.foldl (fun s p => scanPort entry net p s) st).serviceCounts =
      countsSum st.serviceCounts +
        ((ps.filter (fun p => net.dial p && decide (identifyService p ≠ ""))).length : Int) := by
  induction ps generalizing st with
  | nil => simp
  | cons p rest ih =>
      rw [List.foldl_cons, ih, scanPort_eq]
      by_cases hc : net.dial p = true ∧ identifyService p ≠ ""
      · have hf : (net.dial p && decide (identifyService p ≠ "")) = true := by
          simp [hc.1, hc.2]
        simp only [if_pos hc, countsSum_mapIncr, List.filter_cons, hf, if_true,
          List.length_cons]
        push_cast
        omega
      · have hf : (net.dial p && decide (identifyService p ≠ "")) = false := by
          rcases not_and_or.mp hc with h | h
          · simp [h]
          · simp [not_not.mp h]
        simp only [if_neg hc, List.filter_cons, hf]
        simp

/-- Every key of the label counts is a name of a scanned port, as long as the ports
visited lie in 1..10000. -/
theorem foldl_keys (entry : ServiceEntry) (net : HostNet) (ps : List Int) (st : ScanState)
    (hps : ∀ p ∈ ps, 1 ≤ p ∧ p ≤ 10000)
    (hst : ∀ k ∈ mapKeys st.serviceCounts, k ∈ scannedNames) :
    ∀ k ∈ mapKeys (ps.foldl (fun s p => scanPort entry net p s) st).serviceCounts,
      k ∈ scannedNames := by
  induction ps generalizing st with
  | nil => simpa using hst
  | cons p rest ih =>
      rw [List.foldl_cons]
      apply ih
      · intro q hq
        exact hps q (List.mem_cons_of_mem _ hq)
      · rw [scanPort_eq]
        intro k hk
        by_cases hc : net.dial p = true ∧ identifyService p ≠ ""
        · simp only [if_pos hc, mapIncr] at hk
          rcases mem_mapKeys_mapSet _ _ _ _ hk with h | h
          · rw [h]
            have hp := hps p (List.mem_cons_self _ _)
            rcases identifyService_scanned p hp.1 hp.2 with h' | h'
            · exact h'
            · exact absurd h' hc.2
          · exact hst k h
        · simp only [if_neg hc] at hk
          exact hst k hk

/-! ## One pass over an entry -/

theorem flatMap_ite_eq_filter (ps : List Int) (c : Int → Bool) :
    ps.flatMap (fun p => if c p = true then [p] else []) = ps.filter c := by
  induction ps with
  | nil => rfl
  | cons p rest ih =>
      rw [List.flatMap_cons, ih]
      cases h : c p <;> simp [h]

theorem scanEntry_foldl (entry : ServiceEntry) (net : HostNet) (st : ScanState) :
    scanEntry entry net st =
      scannedPorts.foldl (fun s p => scanPort entry net p s)
        ({ st with totalDevices := st.totalDevices + 1 }.emit
          [Event.foundEntry entry.name]) := by
  rw [← scanned_ports, ← scanLoop_eq_foldl]
  rfl

/-- The state after one pass over an entry. -/
theorem scanEntry_eq (entry : ServiceEntry) (net : HostNet) (st : ScanState) :
    (scanEntry entry net st).totalDevices = st.totalDevices + 1 ∧
      (scanEntry entry net st).totalOpenPorts =
        st.totalOpenPorts +
          ((scannedPorts.filter (fun p => net.dial p)).length : Int) ∧
      (scanEntry entry net st).trace =
        st.trace ++ (Event.foundEntry entry.name ::
          scannedPorts.flatMap (portTrace entry net)) ∧
      countsSum (scanEntry entry net st).serviceCounts =
        countsSum st.serviceCounts +
          ((scannedPorts.filter
            (fun p => net.dial p && decide (identifyService p ≠ ""))).length : Int) := by
  rw [scanEntry_foldl]
  obtain ⟨h1, h2, h3⟩ := foldl_scanPort entry net scannedPorts
    ({ st with totalDevices := st.totalDevices + 1 }.emit [Event.foundEntry entry.name])
  rw [h1, h2, h3, foldl_countsSum]
  simp [ScanState.emit]

theorem scanEntry_keys (entry : ServiceEntry) (net : HostNet) (st : ScanState)
    (hst : ∀ k ∈ mapKeys st.serviceCounts, k ∈ scannedNames) :
    ∀ k ∈ mapKeys (scanEntry entry net st).serviceCounts, k ∈ scannedNames := by
  rw [scanEntry_foldl]
  apply foldl_keys
  · intro p hp
    exact (mem_scannedPorts p).1 hp
  · exact hst

theorem filter_length_le_of_imp (ps : List Int) (c d : Int → Bool)
    (h : ∀ p, c p = true → d p = true) : (ps.filter c).length ≤ (ps.filter d).length := by
  induction ps with
  | nil => simp
  | cons p rest ih =>
      simp only [List.filter_cons]
      cases hc : c p
      · cases hd : d p
        · simpa using ih
        · simp only [Bool.false_eq_true, if_false, if_true, List.length_cons]
          omega
      · rw [h p hc]
        simpa using ih

/-- C3: one pass over an entry adds to the open-port count exactly the number of ports of
1..10000 whose connect probe succeeded, a number that is not negative; it adds to the sum
of the label counts the number of those ports that `identifyService` knows, which is at
most the former: an open port with the empty label raises the open-port count and no label
count.  Started from the initial state, the pass leaves exactly these numbers. -/
theorem scanEntry_counts (entry : ServiceEntry) (net : HostNet) (st : ScanState) :
    ((scanEntry entry net st).totalOpenPorts - st.totalOpenPorts =
        ((scannedPorts.filter (fun p => net.dial p)).length : Int) ∧
      0 ≤ (scanEntry entry net st).totalOpenPorts - st.totalOpenPorts ∧
      countsSum (scanEntry entry net st).serviceCounts - countsSum st.serviceCounts =
        ((scannedPorts.filter
          (fun p => net.dial p && decide (identifyService p ≠ ""))).length : Int) ∧
      countsSum (scanEntry entry net st).serviceCounts - countsSum st.serviceCounts ≤
        (scanEntry entry net st).totalOpenPorts - st.totalOpenPorts) ∧
      (0 ≤ (scanEntry entry net ScanState.init).totalOpenPorts ∧
        (scanEntry entry net ScanState.init).totalOpenPorts =
          ((scannedPorts.filter (fun p => net.dial p)).length : Int) ∧
        countsSum (scanEntry entry net ScanState.init).serviceCounts ≤
          (scanEntry entry net ScanState.init).totalOpenPorts) := by
  have hle := filter_length_le_of_imp scannedPorts
    (fun p => net.dial p && decide (identifyService p ≠ "")) (fun p => net.dial p)
    (fun p hp => by
      simp only [Bool.and_eq_true] at hp
      exact hp.1)
  constructor
  · obtain ⟨_, h2, _, h4⟩ := scanEntry_eq entry net st
    refine ⟨by omega, by omega, by omega, by omega⟩
  · obtain ⟨_, h2, _, h4⟩ := scanEntry_eq entry net ScanState.init
    have z1 : ScanState.init.totalOpenPorts = 0 := rfl
    have z2 : countsSum ScanState.init.serviceCounts = 0 := rfl
    rw [z1] at h2
    rw [z2] at h4
    refine ⟨by omega, by omega, by omega⟩

/-- The scan loop's connect probes of one port: exactly one. -/
theorem portTrace_dials (entry : ServiceEntry) (net : HostNet) (p : Int) :
    (portTrace entry net p).filterMap Event.dialPort? = [p] := by
  rw [portTrace_eq]
  have hprobe : (probeService ⟨entry.addrV4, p⟩ (net.banner p)).2.filterMap Event.dialPort?
      = [] := by
    unfold probeService
    dsimp only
    generalize connRead (net.banner p) _ = r
    obtain ⟨buf, n, err⟩ := r
    cases (net.banner p).dialOk <;> cases (net.banner p).deadlineOk <;> cases err <;>
      simp [Event.dialPort?]
  have hhttp : (interactWithHTTP entry.addrV4 p (net.http p)).filterMap Event.dialPort?
      = [] := by
    unfold interactWithHTTP
    cases net.http p <;> simp [Event.dialPort?]
  have hssh : (interactWithSSH entry.addrV4 p (net.ssh p)).filterMap Event.dialPort?
      = [] := by
    rw [interactWithSSH_eq]
    rw [List.filterMap_flatMap]
    have : ∀ pw, (sshAttempt ⟨entry.addrV4, p⟩ (net.ssh p) pw).filterMap Event.dialPort?
        = [] := by
      intro pw
      unfold sshAttempt
      cases net.ssh p pw with
      | output out => by_cases h : trimSpace out = "root" <;> simp [Event.dialPort?, h]
      | _ => simp [Event.dialPort?]
    simp [this]
  cases hd : net.dial p
  · simp [Event.dialPort?]
  · by_cases hm : (probeService ⟨entry.addrV4, p⟩ (net.banner p)).1 = [] <;>
      rcases label_cases (identifyService p) with h | h | h | h <;>
      simp [Event.dialPort?, hm, h, hprobe, hhttp, hssh, List.filterMap_append]

/-- The events a pass adds to the trace. -/
theorem scanEntry_added (entry : ServiceEntry) (net : HostNet) (st : ScanState) :
    (scanEntry entry net st).trace.drop st.trace.length =
      Event.foundEntry entry.name :: scannedPorts.flatMap (portTrace entry net) := by
  rw [(scanEntry_eq entry net st).2.2.1]
  exact List.drop_left' rfl

theorem filterMap_flatMap_portTrace (entry : ServiceEntry) (net : HostNet)
    (f : Event → Option Int) (c : Int → Bool)
    (h : ∀ p, (portTrace entry net p).filterMap f = if c p = true then [p] else [])
    (ps : List Int) : (ps.flatMap (portTrace entry net)).filterMap f = ps.filter c := by
  rw [List.filterMap_flatMap, ← flatMap_ite_eq_filter]
  congr 1
  funext p
  exact h p

theorem scannedPorts_length : scannedPorts.length = 10000 := by
  rw [scannedPorts, List.length_map, List.length_range']

theorem scannedPorts_getElem? (i : Nat) (h : i < 10000) :
    scannedPorts[i]? = some ((i : Int) + 1) := by
  rw [scannedPorts, List.getElem?_map, List.getElem?_range' _ _ h]
  simp only [Option.map_some', Int.ofNat_eq_coe, Option.some.injEq]
  omega

/-- C4: whatever the probes return, one pass over an entry makes its connect probes on the
ports 1, 2, ..., 10000 in this order: 10000 probes, the `i`-th (from 0) on port `i + 1`,
hence strictly ascending, without gap or repeat, and never cut short. -/
theorem scanEntry_probes_each_port_once (entry : ServiceEntry) (net : HostNet)
    (st : ScanState) :
    ((scanEntry entry net st).trace.drop st.trace.length).filterMap Event.dialPort? =
        scannedPorts ∧
      (scanEntry entry net st).trace.take st.trace.length = st.trace ∧
      scannedPorts = (List.range' 1 10000).map Int.ofNat ∧
      scannedPorts.length = 10000 ∧
      (∀ i : Nat, i < 10000 → scannedPorts[i]? = some ((i : Int) + 1)) ∧
      (∀ p : Int, p ∈ scannedPorts ↔ 1 ≤ p ∧ p ≤ 10000) ∧
      scannedPorts.Pairwise (fun a b => a < b) := by
  refine ⟨?_, ?_, rfl, scannedPorts_length, scannedPorts_getElem?, mem_scannedPorts, ?_⟩
  · rw [scanEntry_added, List.filterMap_cons]
    have h0 : Event.dialPort? (Event.foundEntry entry.name) = none := rfl
    rw [h0]
    have h := filterMap_flatMap_portTrace entry net Event.dialPort? (fun _ => true)
      (fun p => by rw [portTrace_dials]; rfl) scannedPorts
    rw [List.filter_eq_self.2 (fun _ _ => rfl)] at h
    exact h
  · rw [(scanEntry_eq entry net st).2.2.1]
    exact List.take_left' rfl
  · rw [scannedPorts, List.pairwise_map]
    refine (List.pairwise_lt_range' 1 10000).imp ?_
    intro a b hab
    exact Int.ofNat_lt.2 hab

/-! ## Which ports get a protocol interaction -/

theorem probeService_events (address : Address) (e : ProbeEnv) :
    (probeService address e).2 = [Event.probeDial address] ∨
      (probeService address e).2 = [Event.probeDial address, Event.deadlineFailed] := by
  unfold probeService
  dsimp only
  generalize connRead e _ = r
  obtain ⟨buf, n, err⟩ := r
  cases e.dialOk <;> cases e.deadlineOk <;> cases err <;> simp

theorem interactWithHTTP_calls (ip : String) (port : Int) (e : HTTPEnv) :
    (interactWithHTTP ip port e).filterMap Event.httpPort? = [port] ∧
      (interactWithHTTP ip port e).filterMap Event.sshPort? = [] := by
  unfold interactWithHTTP
  cases e <;> simp [Event.httpPort?, Event.sshPort?]

theorem sshAttempt_calls (address : Address) (srv : String → SSHAttempt) (pw : String) :
    (sshAttempt address srv pw).filterMap Event.httpPort? = [] ∧
      (sshAttempt address srv pw).filterMap Event.sshPort? =
        if pw = "password" then [address.port] else [] := by
  unfold sshAttempt
  cases srv pw with
  | output out =>
      by_cases h : trimSpace out = "root" <;> by_cases hp : pw = "password" <;>
        simp [Event.httpPort?, Event.sshPort?, h, hp]
  | _ => by_cases hp : pw = "password" <;> simp [Event.httpPort?, Event.sshPort?, hp]

theorem interactWithSSH_calls (ip : String) (port : Int) (srv : String → SSHAttempt) :
    (interactWithSSH ip port srv).filterMap Event.httpPort? = [] ∧
      (interactWithSSH ip port srv).filterMap Event.sshPort? = [port] := by
  rw [interactWithSSH_eq]
  simp [passwords, List.filterMap_append, sshAttempt_calls]

/-- The calls of `interactWithHTTP` and `interactWithSSH` made while one port is scanned. -/
theorem portTrace_calls (entry : ServiceEntry) (net : HostNet) (p : Int) :
    (portTrace entry net p).filterMap Event.httpPort? =
        (if (net.dial p && decide (identifyService p = "HTTP")) = true then [p] else []) ∧
      (portTrace entry net p).filterMap Event.sshPort? =
        (if (net.dial p && decide (identifyService p = "SSH")) = true then [p] else []) := by
  rw [portTrace_eq]
  have hp1 : (probeService ⟨entry.addrV4, p⟩ (net.banner p)).2.filterMap Event.httpPort?
      = [] := by
    rcases probeService_events ⟨entry.addrV4, p⟩ (net.banner p) with h | h <;>
      rw [h] <;> rfl
  have hp2 : (probeService ⟨entry.addrV4, p⟩ (net.banner p)).2.filterMap Event.sshPort?
      = [] := by
    rcases probeService_events ⟨entry.addrV4, p⟩ (net.banner p) with h | h <;>
      rw [h] <;> rfl
  obtain ⟨hh1, hh2⟩ := interactWithHTTP_calls entry.addrV4 p (net.http p)
  obtain ⟨hs1, hs2⟩ := interactWithSSH_calls entry.addrV4 p (net.ssh p)
  cases hd : net.dial p
  · simp [Event.httpPort?, Event.sshPort?]
  · by_cases hm : (probeService ⟨entry.addrV4, p⟩ (net.banner p)).1 = [] <;>
      rcases label_cases (identifyService p) with h | h | h | h <;>
      simp [Event.httpPort?, Event.sshPort?, hm, h, hp1, hp2, hh1, hh2, hs1, hs2,
        List.filterMap_append]

/-- C6: during one pass over an entry `interactWithHTTP` is called exactly for the ports of
1..10000 whose connect probe succeeded and whose label is `HTTP`, once each and in
ascending order, and `interactWithSSH` exactly for those whose label is `SSH`; the label is
`HTTP` for the ports 80 and 443 only and `SSH` for port 22 only, so a port with any other
label, or with none, gets neither call. -/
theorem scanEntry_interactions (entry : ServiceEntry) (net : HostNet) (st : ScanState) :
    ((scanEntry entry net st).trace.drop st.trace.length).filterMap Event.httpPort? =
        scannedPorts.filter (fun p => net.dial p && decide (identifyService p = "HTTP")) ∧
      ((scanEntry entry net st).trace.drop st.trace.length).filterMap Event.sshPort? =
        scannedPorts.filter (fun p => net.dial p && decide (identifyService p = "SSH")) ∧
      (∀ p : Int,
        p ∈ ((scanEntry entry net st).trace.drop st.trace.length).filterMap Event.httpPort? ↔
          net.dial p = true ∧ (p = 80 ∨ p = 443)) ∧
      (∀ p : Int,
        p ∈ ((scanEntry entry net st).trace.drop st.trace.length).filterMap Event.sshPort? ↔
          net.dial p = true ∧ p = 22) ∧
      (∀ p : Int, (identifyService p = "HTTP" ↔ p = 80 ∨ p = 443) ∧
        (identifyService p = "SSH" ↔ p = 22)) ∧
      (∀ p : Int, identifyService p ≠ "HTTP" → identifyService p ≠ "SSH" →
        p ∉ ((scanEntry entry net st).trace.drop st.trace.length).filterMap Event.httpPort? ∧
        p ∉ ((scanEntry entry net st).trace.drop st.trace.length).filterMap
          Event.sshPort?) := by
  have hH : ((scanEntry entry net st).trace.drop st.trace.length).filterMap Event.httpPort? =
      scannedPorts.filter (fun p => net.dial p && decide (identifyService p = "HTTP")) := by
    rw [scanEntry_added, List.filterMap_cons]
    have h0 : Event.httpPort? (Event.foundEntry entry.name) = none := rfl
    rw [h0]
    exact filterMap_flatMap_portTrace entry net Event.httpPort? _
      (fun p => (portTrace_calls entry net p).1) scannedPorts
  have hS : ((scanEntry entry net st).trace.drop st.trace.length).filterMap Event.sshPort? =
      scannedPorts.filter (fun p => net.dial p && decide (identifyService p = "SSH")) := by
    rw [scanEntry_added, List.filterMap_cons]
    have h0 : Event.sshPort? (Event.foundEntry entry.name) = none := rfl
    rw [h0]
    exact filterMap_flatMap_portTrace entry net Event.sshPort? _
      (fun p => (portTrace_calls entry net p).2) scannedPorts
  have mH : ∀ p : Int,
      p ∈ ((scanEntry entry net st).trace.drop st.trace.length).filterMap Event.httpPort? ↔
        net.dial p = true ∧ (p = 80 ∨ p = 443) := by
    intro p
    rw [hH, List.mem_filter, mem_scannedPorts, Bool.and_eq_true, decide_eq_true_eq,
      identifyService_eq_HTTP]
    constructor
    · rintro ⟨_, hd, hp⟩
      exact ⟨hd, hp⟩
    · rintro ⟨hd, hp⟩
      exact ⟨by omega, hd, hp⟩
  have mS : ∀ p : Int,
      p ∈ ((scanEntry entry net st).trace.drop st.trace.length).filterMap Event.sshPort? ↔
        net.dial p = true ∧ p = 22 := by
    intro p
    rw [hS, List.mem_filter, mem_scannedPorts, Bool.and_eq_true, decide_eq_true_eq,
      identifyService_eq_SSH]
    constructor
    · rintro ⟨_, hd, hp⟩
      exact ⟨hd, hp⟩
    · rintro ⟨hd, hp⟩
      exact ⟨by omega, hd, hp⟩
  refine ⟨hH, hS, mH, mS,
    fun p => ⟨identifyService_eq_HTTP p, identifyService_eq_SSH p⟩, ?_⟩
  intro p h1 h2
  rw [mH, mS]
  constructor
  · rintro ⟨_, hp⟩
    exact h1 ((identifyService_eq_HTTP p).2 hp)
  · rintro ⟨_, hp⟩
    exact h2 ((identifyService_eq_SSH p).2 hp)

/-! ## A pass on which every port is closed -/

/-- A closed port: the iteration prints its progress line, makes its connect probe, and
goes on to the next port. -/
theorem scanPort_closed (entry : ServiceEntry) (net : HostNet) (p : Int) (st : ScanState)
    (h : net.dial p = false) :
    scanPort entry net p st =
      st.emit [Event.scanning p, Event.dial ⟨entry.addrV4, p⟩] := by
  rw [scanPort_eq, portTrace_eq]
  simp [h, ScanState.emit]

theorem foldl_closed (entry : ServiceEntry) (net : HostNet) (ps : List Int) (st : ScanState)
    (h : ∀ p ∈ ps, net.dial p = false) :
    ps.foldl (fun s p => scanPort entry net p s) st =
      st.emit (ps.flatMap (fun p => [Event.scanning p, Event.dial ⟨entry.addrV4, p⟩])) := by
  induction ps generalizing st with
  | nil => simp [ScanState.emit]
  | cons p rest ih =>
      rw [List.foldl_cons, scanPort_closed entry net p st (h p (List.mem_cons_self _ _)),
        ih _ (fun q hq => h q (List.mem_cons_of_mem _ hq))]
      simp [ScanState.emit]

theorem scanEntry_closed (entry : ServiceEntry) (net : HostNet) (st : ScanState)
    (h : ∀ p : Int, 1 ≤ p → p ≤ 10000 → net.dial p = false) :
    scanEntry entry net st =
      { totalDevices := st.totalDevices + 1
        totalOpenPorts := st.totalOpenPorts
        serviceCounts := st.serviceCounts
        trace := st.trace ++ (Event.foundEntry entry.name ::
          scannedPorts.flatMap
            (fun p => [Event.scanning p, Event.dial ⟨entry.addrV4, p⟩])) } := by
  rw [scanEntry_foldl, foldl_closed]
  · simp [ScanState.emit]
  · intro p hp
    have hp' := (mem_scannedPorts p).1 hp
    exact h p hp'.1 hp'.2

theorem closed_events_quiet (addr : String) (ps : List Int) :
    (ps.flatMap (fun p => [Event.scanning p, Event.dial ⟨addr, p⟩])).filterMap
        Event.probePort? = [] ∧
      (ps.flatMap (fun p => [Event.scanning p, Event.dial ⟨addr, p⟩])).filter
        Event.isInteraction = [] := by
  induction ps with
  | nil => exact ⟨rfl, rfl⟩
  | cons p rest ih =>
      rw [List.flatMap_cons, List.filterMap_append, List.filter_append, ih.1, ih.2]
      exact ⟨rfl, rfl⟩

theorem report_counts (st : ScanState) :
    (report st).totalOpenPorts = st.totalOpenPorts ∧
      (report st).serviceCounts = st.serviceCounts ∧
      (report st).totalDevices = st.totalDevices := ⟨rfl, rfl, rfl⟩

theorem entriesLoop_cons (entry : ServiceEntry) (net : HostNet)
    (rest : List (ServiceEntry × HostNet)) (st : ScanState) :
    entriesLoop ((entry, net) :: rest) st = entriesLoop rest (scanEntry entry net st) := by
  rw [entriesLoop, entriesLoop, List.foldl_cons]

theorem entriesLoop_nil (st : ScanState) : entriesLoop [] st = st := by
  rw [entriesLoop, List.foldl_nil]

/-- C8: a port whose connect probe fails only gets its progress line and that probe; and
when every probe of a pass fails, the pass leaves the open-port count and the label counts
as they were, adds only the header line and, per port, the progress line and the connect
probe, makes no banner grab and no HTTP or SSH interaction; a run over that one entry ends
with open-port count 0 and empty label counts. -/
theorem scanEntry_all_closed (entry : ServiceEntry) (net : HostNet) (st : ScanState)
    (h : ∀ p : Int, 1 ≤ p → p ≤ 10000 → net.dial p = false) :
    (∀ (q : Int) (s : ScanState), net.dial q = false →
        scanPort entry net q s = s.emit [Event.scanning q, Event.dial ⟨entry.addrV4, q⟩]) ∧
      (scanEntry entry net st).totalOpenPorts = st.totalOpenPorts ∧
      (scanEntry entry net st).serviceCounts = st.serviceCounts ∧
      (scanEntry entry net st).trace.drop st.trace.length =
        Event.foundEntry entry.name ::
          scannedPorts.flatMap (fun p => [Event.scanning p, Event.dial ⟨entry.addrV4, p⟩]) ∧
      ((scanEntry entry net st).trace.drop st.trace.length).filterMap Event.probePort? = [] ∧
      ((scanEntry entry net st).trace.drop st.trace.length).filter Event.isInteraction = [] ∧
      (printEntries [(entry, net)]).totalOpenPorts = 0 ∧
      (printEntries [(entry, net)]).serviceCounts = [] := by
  have hadd : (scanEntry entry net st).trace.drop st.trace.length =
      Event.foundEntry entry.name ::
        scannedPorts.flatMap (fun p => [Event.scanning p, Event.dial ⟨entry.addrV4, p⟩]) := by
    rw [scanEntry_closed entry net st h]
    exact List.drop_left' rfl
  have hq := closed_events_quiet entry.addrV4 scannedPorts
  refine ⟨fun q s hq => scanPort_closed entry net q s hq, ?_, ?_, hadd, ?_, ?_, ?_, ?_⟩
  · rw [scanEntry_closed entry net st h]
  · rw [scanEntry_closed entry net st h]
  · rw [hadd, List.filterMap_cons]
    have h0 : Event.probePort? (Event.foundEntry entry.name) = none := rfl
    rw [h0]
    exact hq.1
  · rw [hadd, List.filter_cons]
    have h0 : Event.isInteraction (Event.foundEntry entry.name) = false := rfl
    rw [h0]
    exact hq.2
  · rw [printEntries, entriesLoop_cons, entriesLoop_nil, (report_counts _).1,
      scanEntry_closed entry net _ h]
    rfl
  · rw [printEntries, entriesLoop_cons, entriesLoop_nil, (report_counts _).2.1,
      scanEntry_closed entry net _ h]
    rfl

theorem scanEntry_all_closed_witness :
    (scanEntry sampleEntry closedNet ScanState.init).totalOpenPorts = 0 ∧
      (scanEntry sampleEntry closedNet ScanState.init).serviceCounts = [] ∧
      ((scanEntry sampleEntry closedNet ScanState.init).trace.drop 0).filterMap
        Event.probePort? = [] ∧
      ((scanEntry sampleEntry closedNet ScanState.init).trace.drop 0).filter
        Event.isInteraction = [] ∧
      (printEntries [(sampleEntry, closedNet)]).totalOpenPorts = 0 ∧
      (printEntries [(sampleEntry, closedNet)]).serviceCounts = [] :=
  have h := scanEntry_all_closed sampleEntry closedNet ScanState.init (fun _ _ _ => rfl)
  ⟨h.2.1, h.2.2.1, h.2.2.2.2.1, h.2.2.2.2.2.1, h.2.2.2.2.2.2.1, h.2.2.2.2.2.2.2⟩

/-! ## The keys of the label counts -/

theorem entriesLoop_keys (entries : List (ServiceEntry × HostNet)) (st : ScanState)
    (hst : ∀ k ∈ mapKeys st.serviceCounts, k ∈ scannedNames) :
    ∀ k ∈ mapKeys (entriesLoop entries st).serviceCounts, k ∈ scannedNames := by
  induction entries generalizing st with
  | nil => rw [entriesLoop_nil]; exact hst
  | cons en rest ih =>
      obtain ⟨entry, net⟩ := en
      rw [entriesLoop_cons]
      exact ih _ (scanEntry_keys entry net st hst)

/-- Every name of `scannedNames` is the label of a port of 1..10000. -/
theorem scannedNames_reachable (k : String) (hk : k ∈ scannedNames) :
    ∃ p : Int, 1 ≤ p ∧ p ≤ 10000 ∧ identifyService p = k := by
  simp only [scannedNames, List.mem_cons, List.mem_singleton, List.mem_nil_iff,
    or_false] at hk
  rcases hk with h | h | h | h | h | h | h | h | h | h | h | h | h | h | h | h | h <;>
    subst h
  · exact ⟨22, by decide, by decide, by decide⟩
  · exact ⟨80, by decide, by decide, by decide⟩
  · exact ⟨554, by decide, by decide, by decide⟩
  · exact ⟨5353, by decide, by decide, by decide⟩
  · exact ⟨8008, by decide, by decide, by decide⟩
  · exact ⟨9000, by decide, by decide, by decide⟩
  · exact ⟨123, by decide, by decide, by decide⟩
  · exact ⟨1900, by decide, by decide, by decide⟩
  · exact ⟨2869, by decide, by decide, by decide⟩
  · exact ⟨5350, by decide, by decide, by decide⟩
  · exact ⟨9090, by decide, by decide, by decide⟩
  · exact ⟨9091, by decide, by decide, by decide⟩
  · exact ⟨1901, by decide, by decide, by decide⟩
  · exact ⟨3689, by decide, by decide, by decide⟩
  · exact ⟨5357, by decide, by decide, by decide⟩
  · exact ⟨5000, by decide, by decide, by decide⟩
  · exact ⟨5431, by decide, by decide, by decide⟩

/-- C10: in every run of `printEntries` the keys of the service counts are labels that
`identifyService` gives to ports of 1..10000; the labels of the ports 10243, 32400 and
32469 (`Windows Remote Management`, `Plex Media Server`, `Roku Media Server`) are never
keys, and neither is the empty label. -/
theorem printEntries_count_keys (entries : List (ServiceEntry × HostNet)) :
    mapKeys (printEntries entries).serviceCounts ⊆ scannedNames ∧
      (∀ k : String, k ∈ mapKeys (printEntries entries).serviceCounts →
        ∃ p : Int, 1 ≤ p ∧ p ≤ 10000 ∧ identifyService p = k) ∧
      "Windows Remote Management" ∉ mapKeys (printEntries entries).serviceCounts ∧
      "Plex Media Server" ∉ mapKeys (printEntries entries).serviceCounts ∧
      "Roku Media Server" ∉ mapKeys (printEntries entries).serviceCounts ∧
      "" ∉ mapKeys (printEntries entries).serviceCounts ∧
      identifyService 10243 = "Windows Remote Management" ∧
      identifyService 32400 = "Plex Media Server" ∧
      identifyService 32469 = "Roku Media Server" := by
  have hsub : ∀ k ∈ mapKeys (printEntries entries).serviceCounts, k ∈ scannedNames := by
    rw [printEntries, (report_counts _).2.1]
    apply entriesLoop_keys
    intro k hk
    exact absurd hk (List.not_mem_nil k)
  refine ⟨hsub, fun k hk => scannedNames_reachable k (hsub k hk), ?_, ?_, ?_, ?_,
    by decide, by decide, by decide⟩
  · intro hk
    exact absurd (hsub _ hk) (by decide)
  · intro hk
    exact absurd (hsub _ hk) (by decide)
  · intro hk
    exact absurd (hsub _ hk) (by decide)
  · intro hk
    exact absurd (hsub _ hk) (by decide)

end MdnsScan
